import Mathlib

/-!
Verification development for the `dockserver_utils` repository.

This file gives a shallow embedding, in Lean, of the parts of the code that
the specification's claims talk about:

* `serial2tcp.py` — the `Serial2TCP` forwarder: connection bookkeeping,
  the startup probe, the two relay directions and the teardown of `run()`.
* `bufferhandler.py` — the `BufferHandler` dialogue processor: line
  extraction from the byte buffer, the fixed parser list, the memory map
  and its purge.
* `fileDecompressor.py` — the `DBDMLGFileRenamer` (header-driven rename)
  and the CREATE/CLOSE_WRITE pairing of
  `AsynchronousFileDecompressorAionotify.is_copied`.

Strings from the Python side are modelled as `List Char`; raw byte chunks as
`List Nat`.  Coroutines that loop over external I/O are modelled as functions
over an explicit trace of I/O events; `none` as a loop result means the trace
was exhausted with the loop still running.  Python exceptions that escape a
modelled function are an `Except.error`.
-/

set_option autoImplicit false

namespace DockserverUtils

/-! ### Constants (serial2tcp.py lines 16-28; `constants.py` is not present in
the repository snapshot, but `bufferhandler.py`'s inline `case 0/1/2` comments
and `serial2tcp.py` fix the same three carrier-detect values). -/

def COMMS_NOERROR : Nat := 0
def COMMS_ERROR_SERIAL : Nat := 1
def COMMS_ERROR_TCP : Nat := 2
def COMMS_ERROR_SERIAL_INITIALISATION : Nat := 3
def COMMS_ERROR_TCP_INITIALISATION : Nat := 4

def CARRIER_DETECT_UNDEFINED : Nat := 0
def CARRIER_DETECT_YES : Nat := 1
def CARRIER_DETECT_NO : Nat := 2

/-! ### Serial2TCP state

A stream handle is live (`closed = false`) or closed.  The four handle slots
of a `Serial2TCP` instance are each nullable, as in `__init__`
(serial2tcp.py lines 55-58).  Serial reader slot is irrelevant to the claims
and omitted from the record.  -/

/-- Exceptions that can escape the modelled fragments. -/
inductive PyExn where
  | attributeError
  | streamWriteError
  deriving DecidableEq, Repr

structure StreamH where
  closed : Bool
  deriving DecidableEq, Repr

structure S2TState where
  ser_writer : Option StreamH
  tcp_reader : Option StreamH
  tcp_writer : Option StreamH
  deriving DecidableEq, Repr

/-- The state of a freshly constructed `Serial2TCP` (all handles `None`). -/
def initialS2TState : S2TState :=
  { ser_writer := none, tcp_reader := none, tcp_writer := none }

/-- `has_tcp_backend` property (line 127-129): `not (self.tcp_writer is None)`. -/
def has_tcp_backend (st : S2TState) : Bool :=
  st.tcp_writer.isSome

/-- `initialise_tcp_connection` (lines 82-98).  Whether
`asyncio.open_connection` succeeds is external; it is passed in as
`connectOk`.  On success both TCP handles are set and `COMMS_NOERROR` is
returned; on failure the state is untouched and
`COMMS_ERROR_TCP_INITIALISATION` is returned. -/
def initialise_tcp_connection (connectOk : Bool) (st : S2TState) : Nat × S2TState :=
  if connectOk then
    (COMMS_NOERROR, { st with tcp_reader := some ⟨false⟩, tcp_writer := some ⟨false⟩ })
  else
    (COMMS_ERROR_TCP_INITIALISATION, st)

/-- `close_tcp_connection` (lines 100-111): `self.tcp_writer.close()` raises
`AttributeError` when `tcp_writer` is `None`; otherwise the writer is closed
and both TCP handles are reset to `None`. -/
def close_tcp_connection (st : S2TState) : Except PyExn S2TState :=
  match st.tcp_writer with
  | none => .error .attributeError
  | some _ => .ok { st with tcp_reader := none, tcp_writer := none }

/-- `check_if_server_is_up` (lines 113-125), transcribed as written: the
`await asyncio.sleep(0.5); await self.close_tcp_connection()` block is guarded
by `if result:` — i.e. it runs exactly when `initialise_tcp_connection`
returned a NON-zero (error) code.  The 0.5 s sleep has no effect on the state
and is not represented. -/
def check_if_server_is_up (connectOk : Bool) (st : S2TState) :
    Except PyExn (Nat × S2TState) :=
  let p := initialise_tcp_connection connectOk st
  if p.1 ≠ 0 then
    (close_tcp_connection p.2).map (fun st2 => (p.1, st2))
  else
    .ok (p.1, p.2)

/-- Outcome of the pre-session part of `run()` (lines 272-284). -/
inductive RunPhase where
  /-- `run()` returned this code before creating the three direction tasks;
  the flag records whether `initialise_serial_connection` was attempted. -/
  | returned (code : Nat) (serialOpenAttempted : Bool)
  /-- `run()` reached the session phase with this connection state. -/
  | sessionStarted (st : S2TState)
  deriving DecidableEq, Repr

/-- The prefix of `run()` up to task creation (lines 272-289): the startup
probe, the early return on a probe error, and `initialise_serial_connection`
(whose success is the external input `serialOk`). -/
def runStartup (connectOk serialOk : Bool) (st : S2TState) : Except PyExn RunPhase :=
  match check_if_server_is_up connectOk st with
  | .error e => .error e
  | .ok (errorno, st1) =>
    if errorno ≠ 0 then
      .ok (.returned errorno false)
    else if serialOk then
      .ok (.sessionStarted { st1 with ser_writer := some ⟨false⟩ })
    else
      .ok (.returned COMMS_ERROR_SERIAL_INITIALISATION true)

/-- The result aggregation of `run()`'s teardown loop (lines 297-300):
`result = COMMS_NOERROR` followed by `for _t in done: ... result = _t.result()`.
Each completed task's code overwrites `result`; the `done` set is given as a
list in iteration order. -/
def runTeardownResult (done : List (String × Nat)) : Nat :=
  done.foldl (fun _r t => t.2) COMMS_NOERROR

/-! ### The serial → TCP direction (`ser_read_to_tcp_write`, lines 145-176)

One loop iteration performs exactly one `self.ser_reader.read(READBUFFER)`,
which either yields a chunk or raises `SerialException`; the trace of these
outcomes drives the model.  `ser_data_filter` (lines 131-136) ignores its
argument and returns `COMMS_NOERROR`; both call sites invoke it with no
argument (lines 155 and 168), i.e. with `data = None`. -/

inductive SerEvent where
  | recv (data : List Nat)
  | raiseSerialException
  deriving DecidableEq, Repr

def ser_data_filter (_data : Option (List Nat)) : Nat :=
  COMMS_NOERROR

/-- Effect on the state of the `except SerialException` branch with a TCP
backend (lines 161-165): the TCP writer is closed, but the handle slots are
left as they are (no `None` reset here). -/
def closeTcpWriterKeepHandles (st : S2TState) : S2TState :=
  { st with tcp_writer := st.tcp_writer.map (fun _ => ⟨true⟩) }

/-- `ser_read_to_tcp_write` as a function of the serial-read trace.  `data`
is the Python local `data` (initially `None`, line 152) which keeps its stale
value when the read raises; `res` is the Python local `result` (initially
`COMMS_NOERROR`, line 151).  The carrier-detect status `cd` is held fixed
across the trace.  Returns the `(result, state)` of the `return result`, or
`none` if the trace ends with the loop still running. -/
def ser_read_to_tcp_write :
    List SerEvent → S2TState → Nat → Option (List Nat) → Nat → Option (Nat × S2TState)
  | events, st, cd, data, res =>
    -- lines 154-157: the filter runs (and could break) when there is no
    -- backend and carrier detect is YES
    let res1 := if ¬ has_tcp_backend st ∧ cd = CARRIER_DETECT_YES then
        ser_data_filter none else res
    if res1 ≠ COMMS_NOERROR ∧ ¬ has_tcp_backend st ∧ cd = CARRIER_DETECT_YES then
      some (res1, st)
    else
      match events with
      | [] => none
      | .raiseSerialException :: rest =>
        if has_tcp_backend st then
          -- lines 161-165: close the TCP writer and break; `result` keeps
          -- its current value (no error code is assigned on this path)
          some (res1, closeTcpWriterKeepHandles st)
        else
          -- exception caught, no break: execution falls to `if not data`
          -- with the stale `data` from the previous iteration
          match data with
          | none => some (res1, st)
          | some [] => some (res1, st)
          | some (b :: bs) =>
            let res2 := ser_data_filter none
            if res2 ≠ COMMS_NOERROR then some (res2, st)
            else ser_read_to_tcp_write rest st cd (some (b :: bs)) res2
      | .recv d :: rest =>
        match d with
        | [] => some (res1, st)          -- lines 166-167: empty read, break
        | _ :: _ =>
          let res2 := ser_data_filter none
          if res2 ≠ COMMS_NOERROR then some (res2, st)
          else
            -- lines 172-174: write to TCP when a backend exists (the write
            -- does not change the handle bookkeeping)
            ser_read_to_tcp_write rest st cd (some d) res2

/-! ### The TCP → serial direction (`tcp_read_to_ser_write`, lines 214-247)

Each iteration with an open backend performs one `tcp_reader.read`, which
yields a chunk or raises; for a non-empty chunk the subsequent
`ser_writer.write/drain` may itself raise, which the source does NOT catch
(the exception escapes the coroutine).  `tcp_data_filter` (lines 139-141)
always returns `COMMS_NOERROR`. -/

inductive TcpEvent where
  | recv (data : List Nat) (serialWriteOk : Bool)
  | raiseReadError
  deriving DecidableEq, Repr

def tcp_data_filter (_data : List Nat) : Nat :=
  COMMS_NOERROR

/-- `tcp_read_to_ser_write` over a trace of TCP-read outcomes, with the
backend presence taken from `st` and the carrier-detect status `cd` held
fixed.  `.ok none`: trace exhausted, loop still running (sleeping
iterations also consume one trace slot).  `.error`: a Python exception
escaped the coroutine. -/
def tcp_read_to_ser_write :
    List TcpEvent → S2TState → Nat → Nat → Except PyExn (Option (Nat × S2TState))
  | events, st, cd, res =>
    if has_tcp_backend st then
      match events with
      | [] => .ok none
      | .raiseReadError :: _ =>
        -- lines 225-231: close the serial writer, set result to
        -- COMMS_ERROR_SERIAL, break
        match st.ser_writer with
        | none => .error .attributeError
        | some _ =>
          .ok (some (COMMS_ERROR_SERIAL, { st with ser_writer := some ⟨true⟩ }))
      | .recv d wOk :: rest =>
        match d with
        | [] => tcp_read_to_ser_write rest st cd res   -- line 239: sleep, retry
        | _ :: _ =>
          let r := tcp_data_filter d
          if r ≠ COMMS_NOERROR then .ok (some (r, st))
          else if wOk then tcp_read_to_ser_write rest st cd r
          else .error .streamWriteError   -- lines 236-237: uncaught
    else
      if cd = CARRIER_DETECT_YES then
        .ok (some (COMMS_ERROR_TCP, st))   -- lines 241-243
      else
        match events with
        | [] => .ok none
        | _ :: rest => tcp_read_to_ser_write rest st cd res  -- line 245: sleep

/-- The `tcp_to_ser` branch of `run()`'s teardown (lines 312-315):
`self.tcp_writer.close(); await self.tcp_writer.wait_closed()` — the writer
is closed but the handle slots are not reset. -/
def run_teardown_tcp_to_ser (st : S2TState) : Except PyExn S2TState :=
  match st.tcp_writer with
  | none => .error .attributeError
  | some _ => .ok (closeTcpWriterKeepHandles st)

/-! ### BufferHandler (bufferhandler.py)

Python strings are `List Char`.  The `memory` dict is an association list in
insertion order; `dictInsert` mirrors Python dict assignment (update in place,
append if new).  The parser regexes are transcribed as explicit matchers; each
regex here consists of literal pieces and maximal character-class runs
(`\w+`, `\d+`, `&nbsp;+`-style space runs) each followed by a character outside
its class, so greedy matching without backtracking is exact. -/

/-- `Timer` (bufferhandler.py lines 14-47); `elapsed` in whole ticks. -/
structure TimerState where
  timeout : Nat
  elapsed : Nat
  active : Bool
  deriving DecidableEq, Repr

def timerReset (t : TimerState) : TimerState :=
  { t with elapsed := 0, active := true }

def timer_disable_until_reset (t : TimerState) : TimerState :=
  { t with active := false }

def is_timed_out (t : TimerState) : Bool :=
  t.active && decide (t.timeout < t.elapsed)

/-- Values stored in `memory`.  `vTime`/`vLatLon` keep the matched numeral
substrings; the source converts them with `arrow.get(...).timestamp()` and
`float(...)`, which we leave symbolic since no claim inspects them. -/
inductive PVal where
  | vStr (s : List Char)
  | vBool (b : Bool)
  | vNat (n : Nat)
  | vTup1 (v : PVal)       -- a Python 1-tuple, e.g. `result.groups(0)`
  | vTime (month day hh mm ss year : List Char)
  | vLatLon (lat lon : List Char)
  deriving DecidableEq, Repr

/-- Python regex `\w`: `[a-zA-Z0-9_]` (ASCII inputs). -/
def isWordChar (c : Char) : Bool :=
  c.isAlphanum || c == '_'

/-- Consume a literal piece of a regex/`startswith` check. -/
def expectLit (lit s : List Char) : Option (List Char) :=
  if lit.isPrefixOf s then some (s.drop lit.length) else none

/-- Consume a non-empty maximal run satisfying `p`. -/
def takeRun (p : Char → Bool) (s : List Char) : Option (List Char × List Char) :=
  match s.takeWhile p with
  | [] => none
  | w => some (w, s.dropWhile p)

/-- Consume `\d+\.\d+`, returning the full matched text. -/
def takeFloat (s : List Char) : Option (List Char × List Char) := do
  let (d1, s1) ← takeRun Char.isDigit s
  match s1 with
  | '.' :: s2 =>
    let (d2, s3) ← takeRun Char.isDigit s2
    pure (d1 ++ '.' :: d2, s3)
  | _ => none

/-- `VehicleNameParser` (lines 60-71): `re.match(r"Vehicle Name: (\w+)")`. -/
def vehicleNameParse (s : List Char) : Option PVal := do
  let s1 ← expectLit "Vehicle Name: ".toList s
  let (w, _) ← takeRun isWordChar s1
  pure (.vStr w)

/-- `GliderLABDOSParser` (lines 74-84): `re.match(r"Glider(LAB|DOS)")`;
the stored value is `result.groups(0)`, a 1-tuple of the group. -/
def gliderLABDOSParse (s : List Char) : Option PVal :=
  if ("GliderLAB".toList).isPrefixOf s then some (.vTup1 (.vStr "LAB".toList))
  else if ("GliderDOS".toList).isPrefixOf s then some (.vTup1 (.vStr "DOS".toList))
  else none

/-- `GPSTimeParser` (lines 86-100):
`re.match(r"Curr Time: (\w+) (\w+) +(\d+) +(\d+):(\d+):(\d+) (\d+) MT: +(\d+)")`;
the source keeps groups 2-7 (month day hh mm ss year). -/
def gpsTimeParse (s : List Char) : Option PVal := do
  let s1 ← expectLit "Curr Time: ".toList s
  let (_dow, s2) ← takeRun isWordChar s1
  let s3 ← expectLit [' '] s2
  let (month, s4) ← takeRun isWordChar s3
  let (_, s5) ← takeRun (· == ' ') s4
  let (day, s6) ← takeRun Char.isDigit s5
  let (_, s7) ← takeRun (· == ' ') s6
  let (hh, s8) ← takeRun Char.isDigit s7
  let s9 ← expectLit [':'] s8
  let (mm, s10) ← takeRun Char.isDigit s9
  let s11 ← expectLit [':'] s10
  let (ss, s12) ← takeRun Char.isDigit s11
  let s13 ← expectLit [' '] s12
  let (year, s14) ← takeRun Char.isDigit s13
  let s15 ← expectLit " MT:".toList s14
  let (_, s16) ← takeRun (· == ' ') s15
  let (_mt, _) ← takeRun Char.isDigit s16
  pure (.vTime month day hh mm ss year)

/-- `GPSLatLonParser` (lines 102-114):
`re.match(r"GPS Location: +(\d+\.\d+) N ([-]?\d+\.\d+) E measured +(\d+\.\d+) secs ago")`. -/
def gpsLatLonParse (s : List Char) : Option PVal := do
  let s1 ← expectLit "GPS Location:".toList s
  let (_, s2) ← takeRun (· == ' ') s1
  let (lat, s3) ← takeFloat s2
  let s4 ← expectLit " N ".toList s3
  let ns : List Char × List Char :=
    match s4 with
    | '-' :: s5 => (['-'], s5)
    | _ => ([], s4)
  let (lonDigits, s6) ← takeFloat ns.2
  let s7 ← expectLit " E measured".toList s6
  let (_, s8) ← takeRun (· == ' ') s7
  let (_ago, s9) ← takeFloat s8
  let _ ← expectLit " secs ago".toList s9
  pure (.vLatLon lat (ns.1 ++ lonDigits))

/-- `MenuParser` (lines 118-129). -/
def menuParse (s : List Char) : Option PVal :=
  if ("Hit Control-R to RESUME the mission".toList).isPrefixOf s then
    some (.vBool true)
  else none

/-- `DisconnectEventParser` (lines 133-144):
`re.match(r"(surface_\d+: Waiting for final GPS fix.|Megabytes available n CF file system)")`.
The unescaped `.` at the end of the first alternative matches any single
character. -/
def disconnectEventParse (s : List Char) : Option PVal :=
  let alt1 : Bool :=
    (Option.isSome <| do
      let s1 ← expectLit "surface_".toList s
      let (_, s2) ← takeRun Char.isDigit s1
      let s3 ← expectLit ": Waiting for final GPS fix".toList s2
      match s3 with
      | [] => none
      | _ :: _ => pure ())
  let alt2 : Bool := ("Megabytes available n CF file system".toList).isPrefixOf s
  if alt1 || alt2 then some (.vBool true) else none

/-- The fixed parser list of `BufferHandler.__init__` (lines 154-159), each
with the name the source derives from the class name. -/
def parsers : List (String × (List Char → Option PVal)) :=
  [("VehicleNameParser", vehicleNameParse),
   ("GliderLABDOSParser", gliderLABDOSParse),
   ("GPSTimeParser", gpsTimeParse),
   ("GPSLatLonParser", gpsLatLonParse),
   ("MenuParser", menuParse),
   ("DisconnectEventParser", disconnectEventParse)]

/-- Python dict assignment `m[k] = v`: replace in place if present (the maps
built here never hold a key twice), else append. -/
def dictInsert (m : List (String × PVal)) (k : String) (v : PVal) :
    List (String × PVal) :=
  if m.any (fun kv => kv.1 == k) then
    m.map (fun kv => if kv.1 == k then (k, v) else kv)
  else
    m ++ [(k, v)]

/-- Python dict lookup `m.get(k)`. -/
def dictGet (m : List (String × PVal)) (k : String) : Option PVal :=
  (m.find? (fun kv => kv.1 == k)).map (fun kv => kv.2)

/-- Python truthiness for the stored value kinds. -/
def pvTruthy : PVal → Bool
  | .vStr s => !s.isEmpty
  | .vBool b => b
  | .vNat n => n != 0
  | .vTup1 _ => true
  | .vTime _ _ _ _ _ _ => true
  | .vLatLon _ _ => true

/-- State of one `BufferHandler` instance. -/
structure BHState where
  queue : List (List Char)
  memory : List (String × PVal)
  buffer : List Char
  line_buffer : List (List Char)
  timer : TimerState
  deriving DecidableEq, Repr

/-- `BufferHandler.__init__` (lines 150-165). -/
def initBHState (carrier_dectect : Nat) : BHState :=
  { queue := []
    memory := [("connection", .vNat carrier_dectect), ("running", .vBool false)]
    buffer := []
    line_buffer := []
    timer := { timeout := 300, elapsed := 0, active := true } }

/-- `BufferHandler.send` (lines 168-174): the decode of the incoming bytes is
external (`bytes.decode()`); its result is passed in as `decoded`, with `none`
for a `UnicodeDecodeError`.  On failure the exception is swallowed (only a
debug log) and nothing is enqueued; on success the text is put on the queue. -/
def send (decoded : Option (List Char)) (st : BHState) : BHState :=
  match decoded with
  | none => st
  | some s => { st with queue := st.queue ++ [s] }

/-- `BufferHandler.clear_memory` (lines 187-190): pop every key not in
`["connection", "VehicleName", "running"]`. -/
def keepOnClear (kv : String × PVal) : Bool :=
  kv.1 == "connection" || kv.1 == "VehicleName" || kv.1 == "running"

def clear_memory (st : BHState) : BHState :=
  { st with memory := st.memory.filter keepOnClear }

/-- Helper for `clear_buffer`: the part of the buffer before the first
`'\n'` and the part after it, or `none` when no `'\n'` is present
(Python `str.index` raising `ValueError`). -/
def splitFirstLine : List Char → Option (List Char × List Char)
  | [] => none
  | c :: cs =>
    if c = '\n' then some ([], cs)
    else (splitFirstLine cs).map (fun p => (c :: p.1, p.2))

/-- `BufferHandler.clear_buffer` (lines 177-185): returns the extracted line
and the new buffer contents (unchanged when there is no `'\n'`). -/
def clear_buffer (buf : List Char) : List Char × List Char :=
  match splitFirstLine buf with
  | none => ([], buf)
  | some p => p

theorem splitFirstLine_some_length {buf : List Char} :
    ∀ {s r : List Char}, splitFirstLine buf = some (s, r) → r.length < buf.length := by
  induction buf with
  | nil => intro s r h; simp [splitFirstLine] at h
  | cons c cs ih =>
    intro s r h
    by_cases hc : c = '\n'
    · simp only [splitFirstLine, if_pos hc, Option.some.injEq, Prod.mk.injEq] at h
      simp [← h.2, Nat.lt_succ_self]
    · cases hsp : splitFirstLine cs with
      | none => simp [splitFirstLine, hc, hsp] at h
      | some p =>
        obtain ⟨p1, p2⟩ := p
        simp only [splitFirstLine, if_neg hc, hsp, Option.map_some', Option.some.injEq,
          Prod.mk.injEq] at h
        have hlt := ih hsp
        rw [← h.2]
        exact Nat.lt_succ_of_lt hlt

theorem clear_buffer_ne_nil_length (buf : List Char)
    (h : (clear_buffer buf).1 ≠ []) : (clear_buffer buf).2.length < buf.length := by
  unfold clear_buffer at *
  cases hs : splitFirstLine buf with
  | none => simp [hs] at h
  | some p =>
    simp only [hs]
    exact splitFirstLine_some_length (by simpa using hs)

/-- The inner `while True` of `BufferHandler.process` (lines 235-243) viewed
as a pure extraction pass: repeatedly `clear_buffer`, stopping (`break`) as
soon as the extracted string is empty.  Returns the extracted lines and the
final buffer contents.  Note that `clear_buffer` has already consumed the
terminator of an empty line when the loop breaks on it.  The loop is run
with an explicit iteration budget: each non-breaking iteration strictly
shortens the buffer, so `buf.length` iterations always reach the `break`
(`processPassFuel_congr` shows the budget is not observable), and at budget
0 the buffer is empty, where the loop would break anyway. -/
def processPassFuel : Nat → List Char → List (List Char) × List Char
  | 0, buf => ([], buf)
  | fuel + 1, buf =>
    let p := clear_buffer buf
    if p.1 = [] then ([], p.2)
    else
      let r := processPassFuel fuel p.2
      (p.1 :: r.1, r.2)

def processPass (buf : List Char) : List (List Char) × List Char :=
  processPassFuel buf.length buf

theorem processPassFuel_congr :
    ∀ (f1 f2 : Nat) (b : List Char), b.length ≤ f1 → b.length ≤ f2 →
      processPassFuel f1 b = processPassFuel f2 b := by
  intro f1
  induction f1 with
  | zero =>
    intro f2 b hb1 _
    have hb : b = [] := List.eq_nil_of_length_eq_zero (Nat.le_zero.mp hb1)
    subst hb
    cases f2 with
    | zero => rfl
    | succ g2 => simp [processPassFuel, clear_buffer, splitFirstLine]
  | succ g1 ih =>
    intro f2 b hb1 hb2
    cases f2 with
    | zero =>
      have hb : b = [] := List.eq_nil_of_length_eq_zero (Nat.le_zero.mp hb2)
      subst hb
      simp [processPassFuel, clear_buffer, splitFirstLine]
    | succ g2 =>
      show processPassFuel (g1 + 1) b = processPassFuel (g2 + 1) b
      simp only [processPassFuel]
      by_cases hs : (clear_buffer b).1 = []
      · simp [hs]
      · have hlt := clear_buffer_ne_nil_length b hs
        have h1 : (clear_buffer b).2.length ≤ g1 := by omega
        have h2 : (clear_buffer b).2.length ≤ g2 := by omega
        simp [hs, ih g2 (clear_buffer b).2 h1 h2]

/-- `deque(maxlen=5)` append (line 165, used at line 239). -/
def ringAppend (ring : List (List Char)) (s : List Char) : List (List Char) :=
  let r := ring ++ [s]
  if 5 < r.length then r.tail else r

/-- The per-emission body of the parser loop in `BufferHandler.process`
(lines 240-254), for one parser `(k, parse)` applied to line `s`. -/
def applyParser (s : List Char) (st : BHState)
    (p : String × (List Char → Option PVal)) : BHState :=
  match p.2 s with
  | none => st
  | some v =>
    let st := { st with memory := dictInsert st.memory p.1 v }
    let st :=
      if p.1 == "VehicleNameParser" || p.1 == "GliderLABDOSParser" then
        { st with timer := timerReset st.timer,
                  memory := dictInsert st.memory "connection" (.vNat CARRIER_DETECT_YES) }
      else if p.1 == "MemoryParser" then
        { st with memory := dictInsert st.memory "running" (.vBool true) }
      else st
    if p.1 == "GliderLABDOSParser" then
      { st with memory := dictInsert st.memory "running" (.vBool false) }
    else if p.1 == "DisconnectEventParser" then
      clear_memory { st with memory := dictInsert (dictInsert st.memory "connection" (.vNat CARRIER_DETECT_NO)) "running" (.vBool false) }
    else st

/-- One extracted line fed through the whole parser list (lines 240-254). -/
def processLine (st : BHState) (s : List Char) : BHState :=
  parsers.foldl (applyParser s) st

/-- Ring append followed by the parser loop, as done per extracted line
(lines 239-254). -/
def lineStep (st : BHState) (s : List Char) : BHState :=
  processLine { st with line_buffer := ringAppend st.line_buffer s } s

/-- The trailing `if self.memory["running"]: self.timer.reset()` of each
`process` iteration (lines 255-256). `"running"` is always present (set in
`__init__` and preserved by `clear_memory`), so the `KeyError` case cannot
arise; it is mapped to the identity. -/
def runningCheck (st : BHState) : BHState :=
  match dictGet st.memory "running" with
  | some v => if pvTruthy v then { st with timer := timerReset st.timer } else st
  | none => st

/-- One `process` iteration that received `line` from the queue
(lines 232-256): append to the buffer, run the extraction pass, feed each
extracted line through ring and parsers, then the running-check. -/
def process_text (st : BHState) (line : List Char) : BHState :=
  let st1 :=
    if line.isEmpty then st
    else
      let p := processPass (st.buffer ++ line)
      p.1.foldl lineStep { st with buffer := p.2 }
  runningCheck st1

/-- One `process` iteration that hit the 1 s queue timeout (lines 227-231):
if the idle timer fired, set `connection = CARRIER_DETECT_NO` and purge. -/
def idle_timeout_step (st : BHState) : BHState :=
  if is_timed_out st.timer then
    clear_memory { st with memory := dictInsert st.memory "connection" (.vNat CARRIER_DETECT_NO) }
  else st

/-! ### DBDMLGFileRenamer (fileDecompressor.py lines 25-81)

The decompressed file is modelled by its list of header lines, each `none`
when the raw bytes do not decode (`UnicodeDecodeError`, skipped by the
source) and `some` of its decoded text otherwise. -/

/-- Python `str.strip()` whitespace (ASCII part; header values are ASCII). -/
def isPySpace (c : Char) : Bool :=
  c == ' ' || c == '\t' || c == '\n' || c == '\r' || c == '\x0b' || c == '\x0c'

/-- Python `str.strip()`. -/
def pyStrip (s : List Char) : List Char :=
  ((s.dropWhile isPySpace).reverse.dropWhile isPySpace).reverse

/-- Python `str.split(":")`: all parts between the `':'` separators. -/
def splitOnColon : List Char → List (List Char)
  | [] => [[]]
  | c :: cs =>
    match splitOnColon cs with
    | [] => [[c]]        -- unreachable: the result is never empty
    | p :: ps => if c = ':' then [] :: p :: ps else (c :: p) :: ps

/-- `GliderFileRenamer.parse_filename_line` (lines 31-37): `k, v = s.split(":")`
raises `ValueError` (mapped to `""`) unless the split has exactly two parts;
otherwise the stripped value part. -/
def parse_filename_line (s : List Char) : List Char :=
  match splitOnColon s with
  | [_k, v] => pyStrip v
  | _ => []

/-- The per-key body of the `for k in keys` loop (lines 52-58): when the line
starts with `key`, parse `key: value` and store a non-empty value, keeping
the current entry otherwise. -/
def updateField (key s : List Char) (cur : Option (List Char)) : Option (List Char) :=
  if key.isPrefixOf s then
    let v := parse_filename_line s
    if v ≠ [] then some v else cur
  else cur

/-- The loop state of `retrieve_filename_mapping`: the values so far stored
under `the8x3_filename` and `full_filename`. -/
def retrieveAux :
    List (Option (List Char)) → Nat → Option (List Char) → Option (List Char) →
      Option (List Char) × Option (List Char)
  | [], _, a, b => (a, b)
  | ln :: rest, i, a, b =>
    if 13 < i then (a, b)        -- `if i > 13: break`
    else
      match ln with
      | none =>
        -- UnicodeDecodeError: no parsing, but the `len(filenames)==2` break
        -- check still runs
        if a.isSome ∧ b.isSome then (a, b) else retrieveAux rest (i + 1) a b
      | some s =>
        let a' := updateField "the8x3_filename".toList s a
        let b' := updateField "full_filename".toList s b
        if a'.isSome ∧ b'.isSome then (a', b') else retrieveAux rest (i + 1) a' b'

/-- `GliderFileRenamer.retrieve_filename_mapping` (lines 39-64): scan at most
the first 14 header lines for `the8x3_filename` / `full_filename` entries,
stopping once both are found; return the pair `(the8x3, full)` when both are
present and `none` for the empty dict. -/
def retrieve_filename_mapping (lines : List (Option (List Char))) :
    Option (List Char × List Char) :=
  match retrieveAux lines 0 none none with
  | (some a, some b) => some (a, b)
  | _ => none

/-- Python `str.replace(old, new)` on character lists: scan left to right,
replacing every (non-overlapping, leftmost-first) occurrence of `old`.  The
callers here always pass a non-empty `old` (`retrieve_filename_mapping` only
stores non-empty values), so Python's special splicing for an empty pattern
is irrelevant and the empty pattern is treated as matching nowhere. -/
theorem isPrefixOf_length_le :
    ∀ {l s : List Char}, l.isPrefixOf s = true → l.length ≤ s.length := by
  intro l
  induction l with
  | nil => intro s _; simp
  | cons c cs ih =>
    intro s h
    cases s with
    | nil => simp [List.isPrefixOf] at h
    | cons d ds =>
      simp only [List.isPrefixOf, Bool.and_eq_true] at h
      simpa using Nat.succ_le_succ (ih h.2)

def pyReplace (s old new : List Char) : List Char :=
  if h : old ≠ [] ∧ old.isPrefixOf s then
    new ++ pyReplace (s.drop old.length) old new
  else
    match s with
    | [] => []
    | c :: cs => c :: pyReplace cs old new
termination_by s.length
decreasing_by
  · have hlen : 0 < old.length := List.length_pos.mpr h.1
    have hle : old.length ≤ s.length := List.IsPrefix.length_le
      (List.isPrefixOf_iff_prefix.mp h.2)
    simp only [List.length_drop]
    omega
  · simp

/-- Python substring test `pat in s`. -/
def occursB (pat : List Char) : List Char → Bool
  | [] => pat.isEmpty
  | c :: cs => pat.isPrefixOf (c :: cs) || occursB pat cs

/-- `DBDMLGFileRenamer.rename` (lines 68-81) minus the filesystem move:
`none` models both the `KeyError` on an empty mapping and the explicit
`ValueError` when neither name occurs in the path. -/
def rename (lines : List (Option (List Char))) (filename : List Char) :
    Option (List Char) :=
  match retrieve_filename_mapping lines with
  | none => none
  | some m =>
    if occursB m.1 filename then
      some (pyReplace filename m.1 m.2)
    else if occursB m.2 filename then
      some (pyReplace filename m.2 m.1)
    else
      none

/-! ### AsynchronousFileDecompressorAionotify.is_copied (lines 189-197)

`aionotify.Flags` re-exports the Linux inotify event masks; the two used by
the watcher registration (line 207) are `CREATE = 0x100` and
`CLOSE_WRITE = 0x8`. -/

def FLAG_CREATE : Nat := 256
def FLAG_CLOSE_WRITE : Nat := 8

/-- `is_copied`: the `handled_files` list plus the reported flag.  Python
`list.append` adds at the end; `list.remove` deletes the first occurrence. -/
def is_copied (handled : List String) (path : String) (change : Nat) :
    List String × Bool :=
  if path ∉ handled ∧ change = FLAG_CREATE then
    (handled ++ [path], false)
  else if path ∈ handled ∧ change = FLAG_CLOSE_WRITE then
    (handled.erase path, true)
  else
    (handled, false)

/-- The `handled_files` list after a sequence of `(path, flags)` events has
been fed to `is_copied`, starting from the empty list of `__init__`. -/
def runEvents (es : List (String × Nat)) : List String :=
  es.foldl (fun h e => (is_copied h e.1 e.2).1) []

/-! ## Claim theorems -/

/-- A `Serial2TCP` state in the session phase: serial writer and both TCP
handles open. -/
def sessionS2TState : S2TState :=
  { ser_writer := some ⟨false⟩, tcp_reader := some ⟨false⟩, tcp_writer := some ⟨false⟩ }

theorem foldl_keepLast (l : List (String × Nat)) :
    ∀ d : Nat, l.foldl (fun _r t => t.2) d = (l.map Prod.snd).getLastD d := by
  induction l with
  | nil => intro d; rfl
  | cons e rest ih =>
    intro d
    simp only [List.foldl_cons, List.map_cons, List.getLastD_cons]
    exact ih e.2

/-- C1.  The claim is refuted by the code: `check_if_server_is_up` guards the
"hold 500 ms then close" block with `if result:`, i.e. it runs exactly on the
FAILED connection attempt.  On a fresh instance whose connect succeeds, the
probe returns `COMMS_NOERROR` with the probe connection still open (never
held-and-closed); when the connect fails, `close_tcp_connection` dereferences
`tcp_writer = None` and the `AttributeError` escapes `run()` instead of
`run()` returning `COMMS_ERROR_TCP_INITIALISATION`. -/
theorem c1_startup_probe_code_bug :
    check_if_server_is_up true initialS2TState =
      .ok (COMMS_NOERROR,
        { initialS2TState with tcp_reader := some ⟨false⟩, tcp_writer := some ⟨false⟩ })
    ∧ ({ initialS2TState with tcp_reader := some ⟨false⟩, tcp_writer := some ⟨false⟩ } : S2TState).tcp_writer ≠ none
    ∧ runStartup false true initialS2TState = .error .attributeError
    ∧ runStartup false false initialS2TState = .error .attributeError :=
  ⟨rfl, by decide, rfl, rfl⟩

/-- C2, counterexample.  When two directions complete before teardown (both
can land in the same `asyncio.wait` wake-up), the loop `result = _t.result()`
keeps only the last examined code: with `ser_to_tcp = ErrSerial` and
`tcp_to_ser = ErrTCP` the returned code is `2`, not the bitwise-OR `3`
(in the other iteration order it is `1`, also not `3`). -/
theorem c2_or_of_codes_counterexample :
    runTeardownResult [("ser_to_tcp", COMMS_ERROR_SERIAL), ("tcp_to_ser", COMMS_ERROR_TCP)] =
      COMMS_ERROR_TCP
    ∧ runTeardownResult [("tcp_to_ser", COMMS_ERROR_TCP), ("ser_to_tcp", COMMS_ERROR_SERIAL)] =
      COMMS_ERROR_SERIAL
    ∧ COMMS_ERROR_TCP ≠ COMMS_ERROR_SERIAL ||| COMMS_ERROR_TCP
    ∧ COMMS_ERROR_SERIAL ≠ COMMS_ERROR_SERIAL ||| COMMS_ERROR_TCP := by
  refine ⟨rfl, rfl, ?_, ?_⟩ <;> decide

/-- C2, amended.  The exit code computed by `run()`'s teardown loop is the
code of the LAST completed direction examined (`COMMS_NOERROR` when none);
when exactly one direction completed this coincides with the claimed
bitwise-OR of completed codes. -/
theorem c2_exit_code_amended :
    (∀ done : List (String × Nat),
      runTeardownResult done = (done.map Prod.snd).getLastD COMMS_NOERROR)
    ∧ ∀ (nm : String) (c : Nat), runTeardownResult [(nm, c)] = COMMS_NOERROR ||| c := by
  constructor
  · intro done
    exact foldl_keepLast done COMMS_NOERROR
  · intro nm c
    show c = COMMS_NOERROR ||| c
    simp [COMMS_NOERROR]

/-- C5.  First half of the claim holds: an empty serial read exits with
`COMMS_NOERROR` and does not touch the TCP writer.  Second half is refuted:
on a `SerialException` with an open backend the direction closes the TCP
writer and exits — but `result` is never assigned an error code anywhere in
`ser_read_to_tcp_write`, so it returns `COMMS_NOERROR` (0), not
`COMMS_ERROR_SERIAL` (1) as claimed. -/
theorem c5_serial_read_failure_code_bug :
    ser_read_to_tcp_write [.recv []] sessionS2TState CARRIER_DETECT_UNDEFINED none COMMS_NOERROR =
      some (COMMS_NOERROR, sessionS2TState)
    ∧ ser_read_to_tcp_write [.raiseSerialException] sessionS2TState CARRIER_DETECT_UNDEFINED
        none COMMS_NOERROR =
      some (COMMS_NOERROR, { sessionS2TState with tcp_writer := some ⟨true⟩ })
    ∧ COMMS_NOERROR ≠ COMMS_ERROR_SERIAL := by
  refine ⟨rfl, rfl, ?_⟩
  decide

/-- C6.  Third conjunct of the claim holds: no TCP backend while
`CD = YES` exits with `COMMS_ERROR_TCP`.  The other two are refuted: a
failed TCP read sets `result = COMMS_ERROR_SERIAL` (1), not `ErrTCP` (2)
— even though its own log message blames "reading from TCP" — and a failed
serial write is not caught at all: the exception escapes the coroutine
instead of the direction returning `ErrSerial`. -/
theorem c6_tcp_direction_code_bug :
    tcp_read_to_ser_write [.raiseReadError] sessionS2TState CARRIER_DETECT_UNDEFINED
        COMMS_NOERROR =
      .ok (some (COMMS_ERROR_SERIAL, { sessionS2TState with ser_writer := some ⟨true⟩ }))
    ∧ COMMS_ERROR_SERIAL ≠ COMMS_ERROR_TCP
    ∧ tcp_read_to_ser_write [.recv [65] false] sessionS2TState CARRIER_DETECT_UNDEFINED
        COMMS_NOERROR = .error .streamWriteError
    ∧ tcp_read_to_ser_write [] { sessionS2TState with tcp_writer := none } CARRIER_DETECT_YES
        COMMS_NOERROR =
      .ok (some (COMMS_ERROR_TCP, { sessionS2TState with tcp_writer := none })) := by
  refine ⟨rfl, ?_, rfl, rfl⟩
  decide

/-- C7, counterexample.  Two code paths close the TCP writer without
resetting the handles: the `SerialException` branch of
`ser_read_to_tcp_write` (lines 161-165) and the `tcp_to_ser` teardown branch
of `run()` (lines 312-315).  After either, `tcp_writer` still holds the
(closed) stream instead of `None`. -/
theorem c7_close_without_null_counterexample :
    ser_read_to_tcp_write [.raiseSerialException] sessionS2TState CARRIER_DETECT_UNDEFINED
        none COMMS_NOERROR =
      some (COMMS_NOERROR, { sessionS2TState with tcp_writer := some ⟨true⟩ })
    ∧ ({ sessionS2TState with tcp_writer := some ⟨true⟩ } : S2TState).tcp_writer ≠ none
    ∧ run_teardown_tcp_to_ser sessionS2TState =
      .ok { sessionS2TState with tcp_writer := some ⟨true⟩ } := by
  refine ⟨rfl, ?_, rfl⟩
  decide

/-- C7, amended.  `close_tcp_connection` does reset both TCP handles to
`None`; but the `SerialException` close in `ser_read_to_tcp_write` and the
`tcp_to_ser` teardown in `run()` close the TCP writer while leaving both
handle slots set. -/
theorem c7_null_handles_amended :
    (∀ st st' : S2TState, close_tcp_connection st = .ok st' →
      st'.tcp_reader = none ∧ st'.tcp_writer = none)
    ∧ (∀ st st' : S2TState, run_teardown_tcp_to_ser st = .ok st' →
        st'.tcp_writer ≠ none ∧ st'.tcp_reader = st.tcp_reader)
    ∧ (∀ st : S2TState, has_tcp_backend st = true →
        (closeTcpWriterKeepHandles st).tcp_writer ≠ none) := by
  refine ⟨?_, ?_, ?_⟩
  · intro st st' h
    cases hw : st.tcp_writer with
    | none => simp [close_tcp_connection, hw] at h
    | some w =>
      simp only [close_tcp_connection, hw] at h
      cases h
      exact ⟨rfl, rfl⟩
  · intro st st' h
    cases hw : st.tcp_writer with
    | none => simp [run_teardown_tcp_to_ser, hw] at h
    | some w =>
      simp only [run_teardown_tcp_to_ser, hw] at h
      cases h
      simp [closeTcpWriterKeepHandles, hw]
  · intro st h
    cases hw : st.tcp_writer with
    | none => simp [has_tcp_backend, hw] at h
    | some w => simp [closeTcpWriterKeepHandles, hw]

/-- C7, witness for the amended theorem at the session state. -/
theorem c7_null_handles_witness :
    close_tcp_connection sessionS2TState =
      .ok { sessionS2TState with tcp_reader := none, tcp_writer := none }
    ∧ ({ sessionS2TState with tcp_reader := none, tcp_writer := none } : S2TState).tcp_reader
        = none
    ∧ ({ sessionS2TState with tcp_reader := none, tcp_writer := none } : S2TState).tcp_writer
        = none
    ∧ (closeTcpWriterKeepHandles sessionS2TState).tcp_writer ≠ none :=
  ⟨rfl,
   (c7_null_handles_amended.1 sessionS2TState _ rfl).1,
   (c7_null_handles_amended.1 sessionS2TState _ rfl).2,
   c7_null_handles_amended.2.2 sessionS2TState rfl⟩

/-- C10.  When the incoming chunk does not decode, `send` swallows the
exception: nothing is enqueued and the whole handler state — queue, memory,
buffer, line ring and timer — is exactly as before. -/
theorem c10_send_decode_failure_confirmed :
    ∀ st : BHState, send none st = st
      ∧ (send none st).queue = st.queue
      ∧ (send none st).memory = st.memory
      ∧ (send none st).buffer = st.buffer :=
  fun _st => ⟨rfl, rfl, rfl, rfl⟩

/-- A dialogue state mid-call: identity and GPS parser keys stored, as after
a vehicle banner and a GPS fix. -/
def c3_memory_before : List (String × PVal) :=
  [("connection", PVal.vNat CARRIER_DETECT_YES),
   ("running", PVal.vBool false),
   ("VehicleNameParser", PVal.vStr "sebastian".toList),
   ("GPSLatLonParser", PVal.vLatLon "5231.957".toList "718.577".toList)]

def c3_state_before : BHState :=
  { queue := [], memory := c3_memory_before, buffer := [], line_buffer := [],
    timer := ⟨300, 0, true⟩ }

def c3_disconnect_line : List Char :=
  "surface_12: Waiting for final GPS fix.\n".toList

/-- C3.  Refuted on the vehicle-name conjunct: after a
`DisconnectEventParser` emission the code does set
`connection = CARRIER_DETECT_NO`, `running = False` and purge — but
`clear_memory`'s keep-list holds the literal key `"VehicleName"`, while the
vehicle-name parser stores its value under its class name
`"VehicleNameParser"` (no code ever writes a key `"VehicleName"`).  So the
vehicle identity is purged along with everything else, both on a disconnect
emission and on an idle timeout, contrary to the claim. -/
theorem c3_vehicle_key_purged_code_bug :
    disconnectEventParse "surface_12: Waiting for final GPS fix.".toList =
      some (PVal.vBool true)
    ∧ dictGet c3_state_before.memory "VehicleNameParser" =
      some (PVal.vStr "sebastian".toList)
    ∧ (process_text c3_state_before c3_disconnect_line).memory =
      [("connection", PVal.vNat CARRIER_DETECT_NO), ("running", PVal.vBool false)]
    ∧ dictGet (process_text c3_state_before c3_disconnect_line).memory "VehicleNameParser" =
      none
    ∧ dictGet (idle_timeout_step { c3_state_before with timer := ⟨300, 301, true⟩ }).memory
        "VehicleNameParser" = none
    ∧ keepOnClear ("VehicleNameParser", PVal.vStr "sebastian".toList) = false
    ∧ keepOnClear ("VehicleName", PVal.vBool true) = true := by
  decide

/-- C4, counterexample.  On buffer `"a\n\nb\n"` one pass extracts only
`"a"`: `clear_buffer` then returns the empty line `""` (consuming its
terminator), which the `if not s: break` treats as "no complete line", so
the pass stops with the complete line `"b\n"` still in the buffer and the
empty line neither ring-appended nor parsed. -/
theorem c4_empty_line_counterexample :
    processPass "a\n\nb\n".toList = ([['a']], ['b', '\n'])
    ∧ '\n' ∈ (processPass "a\n\nb\n".toList).2
    ∧ (processPass "a\n\nb\n".toList).1 ≠ [['a'], [], ['b']] := by
  decide

def joinLines : List (List Char) → List Char
  | [] => []
  | l :: ls => l ++ '\n' :: joinLines ls

theorem splitFirstLine_none_of_not_mem {buf : List Char} (h : '\n' ∉ buf) :
    splitFirstLine buf = none := by
  induction buf with
  | nil => rfl
  | cons c cs ih =>
    have hc : ¬ c = '\n' := fun he => h (by simp [he])
    simp [splitFirstLine, hc, ih (fun hm => h (List.mem_cons_of_mem c hm))]

theorem splitFirstLine_append {l : List Char} (rest : List Char) (h : '\n' ∉ l) :
    splitFirstLine (l ++ '\n' :: rest) = some (l, rest) := by
  induction l with
  | nil => simp [splitFirstLine]
  | cons c cs ih =>
    have hc : ¬ c = '\n' := fun he => h (by simp [he])
    simp [splitFirstLine, hc, ih (fun hm => h (List.mem_cons_of_mem c hm))]

theorem processPassFuel_join :
    ∀ (ls : List (List Char)) (fuel : Nat) (rest : List Char),
      (∀ l ∈ ls, l ≠ [] ∧ '\n' ∉ l) → '\n' ∉ rest →
      (joinLines ls ++ rest).length ≤ fuel →
      processPassFuel fuel (joinLines ls ++ rest) = (ls, rest) := by
  intro ls
  induction ls with
  | nil =>
    intro fuel rest _h1 h2 _hlen
    cases fuel with
    | zero => simp [processPassFuel, joinLines]
    | succ g =>
      simp [processPassFuel, joinLines, clear_buffer, splitFirstLine_none_of_not_mem h2]
  | cons l ls ih =>
    intro fuel rest h1 h2 hlen
    obtain ⟨hl_ne, hl_nl⟩ := h1 l (List.mem_cons_self l ls)
    have hbuf : joinLines (l :: ls) ++ rest = l ++ '\n' :: (joinLines ls ++ rest) := by
      simp [joinLines]
    cases fuel with
    | zero =>
      exfalso
      rw [hbuf] at hlen
      simp [List.length_append] at hlen
    | succ g =>
      rw [hbuf] at hlen ⊢
      have hcb : clear_buffer (l ++ '\n' :: (joinLines ls ++ rest)) =
          (l, joinLines ls ++ rest) := by
        simp [clear_buffer, splitFirstLine_append _ hl_nl]
      have hsub : (joinLines ls ++ rest).length ≤ g := by
        simp [List.length_append] at hlen ⊢
        omega
      simp only [processPassFuel, hcb]
      simp [hl_ne, ih g rest (fun x hx => h1 x (List.mem_cons_of_mem l hx)) h2 hsub]

theorem processPass_join (ls : List (List Char)) (rest : List Char)
    (h1 : ∀ l ∈ ls, l ≠ [] ∧ '\n' ∉ l) (h2 : '\n' ∉ rest) :
    processPass (joinLines ls ++ rest) = (ls, rest) :=
  processPassFuel_join ls _ rest h1 h2 (Nat.le_refl _)

/-- C4, amended.  Restricted to buffers whose complete lines are all
non-empty, a processing pass behaves exactly as claimed: writing the buffer
as nonempty `'\n'`-terminated lines followed by a `'\n'`-free tail, every
line is extracted in order with its terminator discarded (each one
ring-appended and fed to every parser by `lineStep`) and the tail stays in
the buffer.  (An empty complete line instead stops the pass early, its
terminator consumed — see the counterexample.) -/
theorem c4_line_extraction_amended (st : BHState) (ls : List (List Char))
    (rest : List Char)
    (h1 : ∀ l ∈ ls, l ≠ [] ∧ '\n' ∉ l) (h2 : '\n' ∉ rest) :
    processPass (joinLines ls ++ rest) = (ls, rest)
    ∧ (st.buffer = [] → joinLines ls ++ rest ≠ [] →
        process_text st (joinLines ls ++ rest) =
          runningCheck (ls.foldl lineStep { st with buffer := rest })) := by
  have hp := processPass_join ls rest h1 h2
  refine ⟨hp, ?_⟩
  intro hb hne
  have hisE : (joinLines ls ++ rest).isEmpty = false := by
    cases hjoin : joinLines ls ++ rest with
    | nil => exact absurd hjoin hne
    | cons a b => rfl
  unfold process_text
  rw [hisE, hb]
  simp only [Bool.false_eq_true, if_false, List.nil_append, hp]

/-- Witness for the amended C4 at buffer `"a\nbc\nd"`. -/
theorem c4_line_extraction_witness :
    processPass (joinLines [['a'], ['b', 'c']] ++ ['d']) = ([['a'], ['b', 'c']], ['d'])
    ∧ process_text (initBHState 0) (joinLines [['a'], ['b', 'c']] ++ ['d']) =
        runningCheck ([['a'], ['b', 'c']].foldl lineStep
          { initBHState 0 with buffer := ['d'] }) := by
  have h := c4_line_extraction_amended (initBHState 0) [['a'], ['b', 'c']] ['d']
    (by decide) (by decide)
  exact ⟨h.1, h.2 rfl (by decide)⟩

/-! ### C9: the CREATE / CLOSE_WRITE pairing of `is_copied` -/

/-- How one event bears on path `p`: `some true` for `p`'s CREATE,
`some false` for `p`'s CLOSE_WRITE, `none` otherwise. -/
def classifyEvent (p : String) (e : String × Nat) : Option Bool :=
  if e = (p, FLAG_CREATE) then some true
  else if e = (p, FLAG_CLOSE_WRITE) then some false
  else none

/-- The classification of the LAST event of `es` relevant to `p`, if any. -/
def pendingStatus : List (String × Nat) → String → Option Bool
  | [], _ => none
  | e :: rest, p =>
    match pendingStatus rest p with
    | some b => some b
    | none => classifyEvent p e

theorem is_copied_fst_nodup {h : List String} {pa : String} {ch : Nat}
    (hn : h.Nodup) : (is_copied h pa ch).1.Nodup := by
  unfold is_copied
  by_cases h1 : pa ∉ h ∧ ch = FLAG_CREATE
  · simp only [h1, if_pos]
    simp [List.nodup_append, hn, h1.1]
  · by_cases h2 : pa ∈ h ∧ ch = FLAG_CLOSE_WRITE
    · simp only [h1, h2, if_neg, if_pos, not_false_eq_true]
      exact hn.erase pa
    · simp [h1, h2, hn]

theorem foldl_is_copied_nodup :
    ∀ (es : List (String × Nat)) (h : List String), h.Nodup →
      (es.foldl (fun h e => (is_copied h e.1 e.2).1) h).Nodup := by
  intro es
  induction es with
  | nil => intro h hn; exact hn
  | cons e rest ih =>
    intro h hn
    rw [List.foldl_cons]
    exact ih _ (is_copied_fst_nodup hn)

theorem runEvents_nodup (es : List (String × Nat)) : (runEvents es).Nodup :=
  foldl_is_copied_nodup es [] List.nodup_nil

theorem mem_is_copied_fst {h : List String} (hn : h.Nodup) (pa p : String) (ch : Nat) :
    (p ∈ (is_copied h pa ch).1 ↔
      (match classifyEvent p (pa, ch) with | some b => b = true | none => p ∈ h)) := by
  by_cases hpp : pa = p
  · subst hpp
    by_cases hcr : ch = FLAG_CREATE
    · subst hcr
      by_cases hm : pa ∈ h
      · simp [is_copied, classifyEvent, hm, FLAG_CREATE, FLAG_CLOSE_WRITE]
      · simp [is_copied, classifyEvent, hm]
    · by_cases hcw : ch = FLAG_CLOSE_WRITE
      · subst hcw
        by_cases hm : pa ∈ h
        · simp [is_copied, classifyEvent, hm, FLAG_CREATE, FLAG_CLOSE_WRITE,
            hn.not_mem_erase]
        · simp [is_copied, classifyEvent, hm, FLAG_CREATE, FLAG_CLOSE_WRITE, hcr]
      · simp [is_copied, classifyEvent, hcr, hcw]
  · have hppn : p ≠ pa := fun he => hpp he.symm
    have hcl : ∀ c : Nat, classifyEvent p (pa, c) = none := by
      intro c
      simp [classifyEvent, Prod.ext_iff, hpp]
    unfold is_copied
    by_cases h1 : pa ∉ h ∧ ch = FLAG_CREATE
    · simp [h1, hcl, List.mem_append, hppn]
    · by_cases h2 : pa ∈ h ∧ ch = FLAG_CLOSE_WRITE
      · simp [h1, h2, hcl, List.mem_erase_of_ne hppn]
      · simp [h1, h2, hcl]

theorem mem_foldl_is_copied :
    ∀ (es : List (String × Nat)) (h : List String), h.Nodup → ∀ p : String,
      (p ∈ es.foldl (fun h e => (is_copied h e.1 e.2).1) h ↔
        (match pendingStatus es p with | some b => b = true | none => p ∈ h)) := by
  intro es
  induction es with
  | nil => intro h hn p; simp [pendingStatus]
  | cons e rest ih =>
    intro h hn p
    rw [List.foldl_cons]
    rw [ih _ (is_copied_fst_nodup hn) p]
    have hstep := mem_is_copied_fst hn e.1 p e.2
    cases hps : pendingStatus rest p with
    | some b => simp [pendingStatus, hps]
    | none =>
      simp only [pendingStatus, hps]
      simpa using hstep

theorem pendingStatus_none_not_mem :
    ∀ {es : List (String × Nat)} {p : String}, pendingStatus es p = none →
      (p, FLAG_CREATE) ∉ es ∧ (p, FLAG_CLOSE_WRITE) ∉ es := by
  intro es
  induction es with
  | nil => intro p _; simp
  | cons e rest ih =>
    intro p h
    unfold pendingStatus at h
    cases hps : pendingStatus rest p with
    | some b => rw [hps] at h; exact absurd h (by simp)
    | none =>
      rw [hps] at h
      have hrest := ih hps
      unfold classifyEvent at h
      by_cases h1 : e = (p, FLAG_CREATE)
      · rw [if_pos h1] at h; exact absurd h (by simp)
      · rw [if_neg h1] at h
        by_cases h2 : e = (p, FLAG_CLOSE_WRITE)
        · rw [if_pos h2] at h; exact absurd h (by simp)
        · constructor
          · intro hm
            rcases List.mem_cons.mp hm with hh | ht
            · exact h1 hh.symm
            · exact hrest.1 ht
          · intro hm
            rcases List.mem_cons.mp hm with hh | ht
            · exact h2 hh.symm
            · exact hrest.2 ht

theorem pendingStatus_some_false_mem :
    ∀ {es : List (String × Nat)} {p : String}, pendingStatus es p = some false →
      (p, FLAG_CLOSE_WRITE) ∈ es := by
  intro es
  induction es with
  | nil => intro p h; simp [pendingStatus] at h
  | cons e rest ih =>
    intro p h
    unfold pendingStatus at h
    cases hps : pendingStatus rest p with
    | some b =>
      rw [hps] at h
      cases b with
      | true => exact absurd h (by simp)
      | false => exact List.mem_cons_of_mem e (ih hps)
    | none =>
      rw [hps] at h
      unfold classifyEvent at h
      by_cases h1 : e = (p, FLAG_CREATE)
      · rw [if_pos h1] at h; exact absurd h (by simp)
      · rw [if_neg h1] at h
        by_cases h2 : e = (p, FLAG_CLOSE_WRITE)
        · rw [h2]; exact List.mem_cons_self _ _
        · rw [if_neg h2] at h; exact absurd h (by simp)

theorem pendingStatus_true_iff :
    ∀ (es : List (String × Nat)) (p : String),
      pendingStatus es p = some true ↔
        ∃ es1 es2, es = es1 ++ (p, FLAG_CREATE) :: es2 ∧ (p, FLAG_CLOSE_WRITE) ∉ es2 := by
  intro es p
  induction es with
  | nil =>
    simp only [pendingStatus]
    constructor
    · intro h; exact absurd h (by simp)
    · rintro ⟨es1, es2, heq, -⟩
      exact absurd heq.symm (List.append_ne_nil_of_right_ne_nil es1 (by simp))
  | cons e rest ih =>
    cases hps : pendingStatus rest p with
    | some b =>
      cases b with
      | true =>
        have hl : pendingStatus (e :: rest) p = some true := by
          unfold pendingStatus; rw [hps]
        simp only [hl, true_iff]
        obtain ⟨es1, es2, heq, hnm⟩ := ih.mp hps
        exact ⟨e :: es1, es2, by rw [heq]; rfl, hnm⟩
      | false =>
        have hl : pendingStatus (e :: rest) p = some false := by
          unfold pendingStatus; rw [hps]
        rw [hl]
        constructor
        · intro h; exact absurd h (by simp)
        · rintro ⟨es1, es2, heq, hnm⟩
          exfalso
          cases es1 with
          | nil =>
            simp only [List.nil_append, List.cons.injEq] at heq
            exact hnm (heq.2 ▸ pendingStatus_some_false_mem hps)
          | cons e1 es1 =>
            simp only [List.cons_append, List.cons.injEq] at heq
            have : pendingStatus rest p = some true :=
              ih.mpr ⟨es1, es2, heq.2, hnm⟩
            rw [hps] at this
            exact absurd this (by simp)
    | none =>
      have hl : pendingStatus (e :: rest) p = classifyEvent p e := by
        unfold pendingStatus; rw [hps]
      rw [hl]
      constructor
      · intro h
        have he : e = (p, FLAG_CREATE) := by
          unfold classifyEvent at h
          by_cases h1 : e = (p, FLAG_CREATE)
          · exact h1
          · rw [if_neg h1] at h
            by_cases h2 : e = (p, FLAG_CLOSE_WRITE)
            · rw [if_pos h2] at h; exact absurd h (by simp)
            · rw [if_neg h2] at h; exact absurd h (by simp)
        exact ⟨[], rest, by rw [he]; rfl, (pendingStatus_none_not_mem hps).2⟩
      · rintro ⟨es1, es2, heq, hnm⟩
        cases es1 with
        | nil =>
          simp only [List.nil_append, List.cons.injEq] at heq
          rw [heq.1]
          simp [classifyEvent]
        | cons e1 es1 =>
          simp only [List.cons_append, List.cons.injEq] at heq
          have : pendingStatus rest p = some true := ih.mpr ⟨es1, es2, heq.2, hnm⟩
          rw [hps] at this
          exact absurd this (by simp)

theorem is_copied_closeWrite (h : List String) (p : String) :
    is_copied h p FLAG_CLOSE_WRITE = if p ∈ h then (h.erase p, true) else (h, false) := by
  unfold is_copied
  by_cases hm : p ∈ h <;>
    simp [hm, FLAG_CREATE, FLAG_CLOSE_WRITE]

/-- C9.  Starting from the empty `handled_files` list, feed any sequence of
`(path, flags)` events to `is_copied`.  A further CLOSE_WRITE for `p` reports
"copied" exactly when some CREATE for `p` occurred with no CLOSE_WRITE for
`p` after it (in particular, a CLOSE_WRITE with no pending CREATE reports
not copied); and once a CLOSE_WRITE has reported "copied", an immediately
repeated CLOSE_WRITE for the same path reports not copied — one report per
CREATE/CLOSE_WRITE pair. -/
theorem c9_create_closewrite_pairing_confirmed :
    ∀ (es : List (String × Nat)) (p : String),
      ((is_copied (runEvents es) p FLAG_CLOSE_WRITE).2 = true ↔
        ∃ es1 es2, es = es1 ++ (p, FLAG_CREATE) :: es2 ∧ (p, FLAG_CLOSE_WRITE) ∉ es2)
      ∧ ((is_copied (runEvents es) p FLAG_CLOSE_WRITE).2 = true →
          (is_copied (is_copied (runEvents es) p FLAG_CLOSE_WRITE).1 p
            FLAG_CLOSE_WRITE).2 = false) := by
  intro es p
  have hn : (runEvents es).Nodup := runEvents_nodup es
  have hmem := mem_foldl_is_copied es [] List.nodup_nil p
  constructor
  · rw [is_copied_closeWrite]
    by_cases hm : p ∈ runEvents es
    · rw [if_pos hm]
      apply iff_of_true rfl
      have hmm := hmem.mp (by simpa [runEvents] using hm)
      rw [← pendingStatus_true_iff es p]
      cases hps : pendingStatus es p with
      | none =>
        rw [hps] at hmm
        exact absurd hmm (by simp)
      | some b =>
        rw [hps] at hmm
        have hb : b = true := hmm
        rw [hb]
    · rw [if_neg hm]
      apply iff_of_false (by simp)
      intro hex
      apply hm
      have hpt : pendingStatus es p = some true := (pendingStatus_true_iff es p).mpr hex
      have hpe : p ∈ List.foldl (fun h e => (is_copied h e.1 e.2).1) [] es :=
        hmem.mpr (by rw [hpt])
      simpa [runEvents] using hpe
  · intro htrue
    rw [is_copied_closeWrite] at htrue
    by_cases hm : p ∈ runEvents es
    · rw [is_copied_closeWrite, is_copied_closeWrite]
      simp [hm, hn.not_mem_erase]
    · rw [if_neg hm] at htrue
      exact absurd htrue (by simp)

/-- Witness for C9 at the trace `[("f", CREATE)]`. -/
theorem c9_pairing_witness :
    (is_copied (runEvents [("f", 256)]) "f" FLAG_CLOSE_WRITE).2 = true
    ∧ (is_copied (is_copied (runEvents [("f", 256)]) "f" FLAG_CLOSE_WRITE).1 "f"
        FLAG_CLOSE_WRITE).2 = false := by
  have h := c9_create_closewrite_pairing_confirmed [("f", 256)] "f"
  have h1 : (is_copied (runEvents [("f", 256)]) "f" FLAG_CLOSE_WRITE).2 = true :=
    h.1.mpr ⟨[], [], rfl, by simp⟩
  exact ⟨h1, h.2 h1⟩

/-! ### C8: the header-driven rename -/

theorem isPrefixOf_append_self (pat q : List Char) : pat.isPrefixOf (pat ++ q) = true := by
  induction pat with
  | nil => simp [List.isPrefixOf]
  | cons c cs ih => simp [List.isPrefixOf, ih]

theorem occursB_of_pfx {pat s : List Char} (h : pat.isPrefixOf s = true) :
    occursB pat s = true := by
  cases s with
  | nil =>
    cases pat with
    | nil => rfl
    | cons a as => simp [List.isPrefixOf] at h
  | cons c cs => simp [occursB, h]

theorem occursB_of_split (pat p q : List Char) : occursB pat (p ++ pat ++ q) = true := by
  induction p with
  | nil =>
    simp only [List.nil_append]
    exact occursB_of_pfx (isPrefixOf_append_self pat q)
  | cons c p' ih =>
    simp only [List.cons_append]
    simp only [occursB, Bool.or_eq_true]
    exact Or.inr ih

theorem pyReplace_pos {s old new : List Char} (h1 : old ≠ []) (h2 : old.isPrefixOf s = true) :
    pyReplace s old new = new ++ pyReplace (s.drop old.length) old new := by
  rw [pyReplace.eq_def, dif_pos ⟨h1, h2⟩]

theorem pyReplace_neg {s old new : List Char} (h : ¬(old ≠ [] ∧ old.isPrefixOf s = true)) :
    pyReplace s old new =
      match s with
      | [] => []
      | c :: cs => c :: pyReplace cs old new := by
  rw [pyReplace.eq_def, dif_neg h]

theorem pyReplace_not_occ {pat new : List Char} (hne : pat ≠ []) :
    ∀ {s : List Char}, occursB pat s = false → pyReplace s pat new = s := by
  intro s
  induction s with
  | nil =>
    intro _h
    rw [pyReplace_neg]
    rintro ⟨_h1, h2⟩
    cases pat with
    | nil => exact hne rfl
    | cons a as => simp [List.isPrefixOf] at h2
  | cons c cs ih =>
    intro h
    have h' : pat.isPrefixOf (c :: cs) = false ∧ occursB pat cs = false := by
      simpa [occursB, Bool.or_eq_false_iff] using h
    rw [pyReplace_neg (by rintro ⟨_h1, hp⟩; rw [h'.1] at hp; exact Bool.false_ne_true hp)]
    simp [ih h'.2]

theorem pyReplace_split {pat new : List Char} (hne : pat ≠ []) :
    ∀ (p q : List Char),
      (∀ i, i < p.length → pat.isPrefixOf ((p ++ pat ++ q).drop i) = false) →
      pyReplace (p ++ pat ++ q) pat new = p ++ new ++ pyReplace q pat new := by
  intro p
  induction p with
  | nil =>
    intro q _h
    simp only [List.nil_append]
    rw [pyReplace_pos hne (isPrefixOf_append_self pat q), List.drop_left]
  | cons c p' ih =>
    intro q h
    have h0 := h 0 (by simp)
    simp only [List.drop_zero] at h0
    have hneg : ¬(pat ≠ [] ∧ pat.isPrefixOf ((c :: p') ++ pat ++ q) = true) := by
      rintro ⟨_h1, hp⟩
      rw [h0] at hp
      exact Bool.false_ne_true hp
    rw [pyReplace_neg hneg]
    have ih' := ih q (fun i hi => by
      have hh := h (i + 1) (by simpa using Nat.succ_lt_succ hi)
      simpa using hh)
    simp only [List.cons_append, List.cons.injEq]
    simpa using ih'

theorem updateField_nonempty (key s : List Char) {cur : Option (List Char)}
    (hcur : ∀ v, cur = some v → v ≠ []) :
    ∀ v, updateField key s cur = some v → v ≠ [] := by
  intro v h
  simp only [updateField] at h
  by_cases hk : key.isPrefixOf s
  · rw [if_pos hk] at h
    by_cases hv : parse_filename_line s ≠ []
    · rw [if_pos hv] at h
      cases h
      exact hv
    · rw [if_neg hv] at h
      exact hcur v h
  · rw [if_neg hk] at h
    exact hcur v h

theorem retrieveAux_nonempty :
    ∀ (lines : List (Option (List Char))) (i : Nat) (a b : Option (List Char)),
      (∀ v, a = some v → v ≠ []) → (∀ v, b = some v → v ≠ []) →
      (∀ v, (retrieveAux lines i a b).1 = some v → v ≠ []) ∧
      (∀ v, (retrieveAux lines i a b).2 = some v → v ≠ []) := by
  intro lines
  induction lines with
  | nil => intro i a b ha hb; exact ⟨ha, hb⟩
  | cons ln rest ih =>
    intro i a b ha hb
    unfold retrieveAux
    by_cases hi : 13 < i
    · rw [if_pos hi]; exact ⟨ha, hb⟩
    · rw [if_neg hi]
      cases ln with
      | none =>
        by_cases hab : a.isSome ∧ b.isSome
        · rw [if_pos hab]; exact ⟨ha, hb⟩
        · rw [if_neg hab]; exact ih _ _ _ ha hb
      | some s =>
        have ha' := updateField_nonempty "the8x3_filename".toList s ha
        have hb' := updateField_nonempty "full_filename".toList s hb
        by_cases hab : (updateField "the8x3_filename".toList s a).isSome ∧
            (updateField "full_filename".toList s b).isSome
        · simp only [hab, if_pos]
          exact ⟨ha', hb'⟩
        · simp only [hab, if_neg, not_false_eq_true]
          exact ih _ _ _ ha' hb'

theorem retrieve_mapping_nonempty {lines : List (Option (List Char))}
    {a b : List Char} (h : retrieve_filename_mapping lines = some (a, b)) :
    a ≠ [] ∧ b ≠ [] := by
  unfold retrieve_filename_mapping at h
  have hne := retrieveAux_nonempty lines 0 none none (by simp) (by simp)
  cases hr : retrieveAux lines 0 none none with
  | mk x y =>
    rw [hr] at h hne
    cases x with
    | none => simp at h
    | some va =>
      cases y with
      | none => simp at h
      | some vb =>
        simp only [Option.some.injEq, Prod.mk.injEq] at h
        obtain ⟨h1, h2⟩ := h
        subst h1; subst h2
        exact ⟨hne.1 _ rfl, hne.2 _ rfl⟩

theorem rename_eq_of_map {lines : List (Option (List Char))} {fn a b : List Char}
    (hmap : retrieve_filename_mapping lines = some (a, b)) :
    rename lines fn =
      if occursB a fn = true then some (pyReplace fn a b)
      else if occursB b fn = true then some (pyReplace fn b a)
      else none := by
  unfold rename
  rw [hmap]

/-- C8, amended.  `rename` swaps the two header names and is an involution
under leftmost/uniqueness side conditions that the claim's "path contains
exactly one of the two names" does not by itself guarantee: writing the path
as `p ++ x ++ q` with `x` the contained name and `y` the other, (i) `x` has
no occurrence starting inside `p` and none inside `q`; (ii) the same for `y`
in the renamed path `p ++ y ++ q`; and (iii) whenever the contained name is
the full name, the 8.3 name (checked first by the code) does not occur in
the path.  Under these conditions one rename yields `p ++ y ++ q` and a
second rename restores `p ++ x ++ q`. -/
theorem c8_rename_involution_amended
    (lines : List (Option (List Char))) (a b x y p q : List Char)
    (hmap : retrieve_filename_mapping lines = some (a, b))
    (hxy : (x = a ∧ y = b) ∨ (x = b ∧ y = a))
    (hx_first : x = b → occursB a (p ++ x ++ q) = false)
    (hy_first : y = b → occursB a (p ++ y ++ q) = false)
    (hlead_x : ∀ i, i < p.length → x.isPrefixOf ((p ++ x ++ q).drop i) = false)
    (hq_x : occursB x q = false)
    (hlead_y : ∀ i, i < p.length → y.isPrefixOf ((p ++ y ++ q).drop i) = false)
    (hq_y : occursB y q = false) :
    rename lines (p ++ x ++ q) = some (p ++ y ++ q) ∧
    rename lines (p ++ y ++ q) = some (p ++ x ++ q) := by
  rcases hxy with ⟨hx, hy⟩ | ⟨hx, hy⟩
  · -- x is the 8.3 name, y the full name
    rw [← hx, ← hy] at hmap
    obtain ⟨hxne, hyne⟩ := retrieve_mapping_nonempty hmap
    have hox : occursB x (p ++ x ++ q) = true := occursB_of_split x p q
    have hoy : occursB y (p ++ y ++ q) = true := occursB_of_split y p q
    have hno : occursB x (p ++ y ++ q) = false := by rw [hx]; exact hy_first hy
    have hno' : ¬ occursB x (p ++ y ++ q) = true := by rw [hno]; simp
    constructor
    · rw [rename_eq_of_map hmap, if_pos hox, pyReplace_split hxne p q hlead_x,
        pyReplace_not_occ hxne hq_x]
    · rw [rename_eq_of_map hmap, if_neg hno', if_pos hoy,
        pyReplace_split hyne p q hlead_y, pyReplace_not_occ hyne hq_y]
  · -- x is the full name, y the 8.3 name
    rw [← hy, ← hx] at hmap
    obtain ⟨hyne, hxne⟩ := retrieve_mapping_nonempty hmap
    have hox : occursB x (p ++ x ++ q) = true := occursB_of_split x p q
    have hoy : occursB y (p ++ y ++ q) = true := occursB_of_split y p q
    have hno : occursB y (p ++ x ++ q) = false := by rw [hy]; exact hx_first hx
    have hno' : ¬ occursB y (p ++ x ++ q) = true := by rw [hno]; simp
    constructor
    · rw [rename_eq_of_map hmap, if_neg hno', if_pos hox,
        pyReplace_split hxne p q hlead_x, pyReplace_not_occ hxne hq_x]
    · rw [rename_eq_of_map hmap, if_pos hoy, pyReplace_split hyne p q hlead_y,
        pyReplace_not_occ hyne hq_y]

/-- A header whose two names overlap adversarially: the 8.3 name `"b"` is a
substring of the full name `"ab"`. -/
def c8_cex_header : List (Option (List Char)) :=
  [some "the8x3_filename: b".toList, some "full_filename: ab".toList]

/-- C8, counterexample.  The path `"b"` contains exactly one of the two
header names (`"b"` but not `"ab"`), yet renaming twice does not restore it:
`"b"` → `"ab"` → `"aab"`, because the second rename finds the 8.3 name
`"b"` inside `"ab"` and takes the 8.3→full branch. -/
theorem c8_involution_counterexample :
    occursB "b".toList ['b'] = true
    ∧ occursB "ab".toList ['b'] = false
    ∧ rename c8_cex_header ['b'] = some ['a', 'b']
    ∧ rename c8_cex_header ['a', 'b'] = some ['a', 'a', 'b']
    ∧ (['a', 'a', 'b'] : List Char) ≠ ['b'] := by
  have e1 : pyReplace ['b'] ['b'] ['a', 'b'] = ['a', 'b'] := by
    simp [pyReplace]
  have e2 : pyReplace ['a', 'b'] ['b'] ['a', 'b'] = ['a', 'a', 'b'] := by
    simp [pyReplace]
  have h1 : rename c8_cex_header ['b'] = some (pyReplace ['b'] ['b'] ['a', 'b']) := rfl
  have h2 : rename c8_cex_header ['a', 'b'] = some (pyReplace ['a', 'b'] ['b'] ['a', 'b']) := rfl
  refine ⟨by decide, by decide, ?_, ?_, by decide⟩
  · rw [h1, e1]
  · rw [h2, e2]

/-- The header of the spec's round-trip scenario (test data
`01600001.dbd`). -/
def c8_header_example : List (Option (List Char)) :=
  [some "dbd_label:    DBD(dinkum_binary_data)file\n".toList,
   some "encoding_ver:    5\n".toList,
   some "the8x3_filename:    01600001\n".toList,
   some "full_filename:    k_999-2023-107-0-1\n".toList]

/-- Witness for the amended C8 on the spec's example:
`01600001.dbd` ↔ `k_999-2023-107-0-1.dbd`. -/
theorem c8_involution_witness :
    rename c8_header_example ([] ++ "01600001".toList ++ ".dbd".toList) =
      some ([] ++ "k_999-2023-107-0-1".toList ++ ".dbd".toList)
    ∧ rename c8_header_example ([] ++ "k_999-2023-107-0-1".toList ++ ".dbd".toList) =
      some ([] ++ "01600001".toList ++ ".dbd".toList) := by
  have h := c8_rename_involution_amended c8_header_example
    "01600001".toList "k_999-2023-107-0-1".toList
    "01600001".toList "k_999-2023-107-0-1".toList
    [] ".dbd".toList
    (by decide)
    (Or.inl ⟨rfl, rfl⟩)
    (fun hxb => absurd hxb (by decide))
    (fun _ => by decide)
    (fun i hi => absurd hi (by simp))
    (by decide)
    (fun i hi => absurd hi (by simp))
    (by decide)
  exact h

end DockserverUtils
